import Mathlib

/-!
# Verification of the ShopSphere admin front-end core

Shallow embedding of the toast/notification queue and the list-mutation
handlers of the admin pages (`src/app/admin/page.tsx` users list,
`src/app/admin/products/page.tsx` product list, `src/app/admin/addproduct`).

The React `useState` cells become explicit function arguments and result
fields; each async handler becomes a pure function from the pre-state and
the outcome of its (single) network call to the post-state together with
the list of notifications it pushed and whether the network transport was
invoked.  JavaScript string falsiness (`""` and `undefined` are falsy) is
modelled explicitly.
-/

namespace ShopSphere

/-- Kind of a toast message: `"success" | "error" | "info"`. -/
inductive ToastKind where
  | success
  | error
  | info
deriving DecidableEq, Repr

/-- A toast entry as stored in the `toasts` state:
`{ id: string; message: string; type: ... }`. -/
structure Toast where
  id : String
  message : String
  kind : ToastKind
deriving DecidableEq, Repr

/-- JavaScript `a || b` for two string-or-undefined values
(`undefined` and `""` are falsy). -/
def jsOr (a b : Option String) : Option String :=
  match a with
  | some s => if s = "" then b else some s
  | none => b

/-- JavaScript `a || b` where `a` is string-or-undefined and `b` is a string:
the result used whenever the code writes `x || fallback` with a string
fallback. -/
def jsOrStr (a : Option String) (b : String) : String :=
  match a with
  | some s => if s = "" then b else s
  | none => b

/-- JavaScript truthiness of a string-or-null value (`null` and `""` falsy). -/
def jsTruthy (a : Option String) : Bool :=
  match a with
  | some s => s ≠ ""
  | none => false

/-- A user row (`interface User`); `id` and `_id` are both optional. -/
structure User where
  id : Option String
  _id : Option String
  fullName : String
  email : String
  mobile : String
  address : String
  gender : String
  createdAt : Option String
  updatedAt : Option String
deriving DecidableEq, Repr

/-- The editable user details held in the modal (`interface UserDetails`).
The five mutable attributes are string-or-undefined since the details come
straight from the API response. -/
structure UserDetails where
  id : Option String
  _id : Option String
  fullName : Option String
  email : Option String
  mobile : Option String
  address : Option String
  gender : Option String
deriving DecidableEq, Repr

/-- `(userDetails.id || userDetails._id || "") as string`. -/
def UserDetails.resolvedId (d : UserDetails) : String :=
  jsOrStr (jsOr d.id d._id) ""

/-- `(u.id || u._id)` — the key a list row is compared against. -/
def User.key (u : User) : Option String :=
  jsOr u.id u._id

/-- A message pushed through `showToast` during one handler run, abstracting
away the randomly generated toast id: the pair of the `message` and `type`
arguments. -/
structure Notice where
  message : String
  kind : ToastKind
deriving DecidableEq, Repr

/-! ## Toast queue (`showToast` / `removeToast` and the expiry timer)

`showToast` appends `{ id, message, type }` to the `toasts` list and arms a
`setTimeout` that, `4000` ms later, filters that id out; `removeToast`
filters the id out immediately.  The randomly generated id is taken as a
parameter. -/

/-- The fixed auto-expiry delay handed to `setTimeout` (milliseconds). -/
def toastTimeoutMs : Nat := 4000

/-- `showToast`: `setToasts((prev) => [...prev, { id, message, type }])`. -/
def showToast (toasts : List Toast) (id message : String) (kind : ToastKind) :
    List Toast :=
  toasts ++ [{ id := id, message := message, kind := kind }]

/-- The `setTimeout` callback armed by `showToast`, firing `toastTimeoutMs`
after the push: `setToasts((prev) => prev.filter((toast) => toast.id !== id))`. -/
def expireToast (toasts : List Toast) (id : String) : List Toast :=
  toasts.filter (fun t => t.id ≠ id)

/-- `removeToast`: `setToasts((prev) => prev.filter((toast) => toast.id !== id))`. -/
def removeToast (toasts : List Toast) (id : String) : List Toast :=
  toasts.filter (fun t => t.id ≠ id)

/-- One event acting on the toast queue: a `showToast` push (with the id
freshly drawn inside `showToast`), the firing of the expiry timer of a push, or a
manual `removeToast` dismissal. -/
inductive QEvent where
  | push (id message : String) (kind : ToastKind)
  | fire (id : String)
  | dismiss (id : String)
deriving DecidableEq, Repr

/-- Apply one queue event to the `toasts` state. -/
def qStep (toasts : List Toast) : QEvent → List Toast
  | .push id message kind => showToast toasts id message kind
  | .fire id => expireToast toasts id
  | .dismiss id => removeToast toasts id

/-- Run a sequence of queue events from a given `toasts` state. -/
def runQFrom (toasts : List Toast) (es : List QEvent) : List Toast :=
  es.foldl qStep toasts

/-- Run a sequence of queue events from the initial empty queue. -/
def runQ (es : List QEvent) : List Toast :=
  runQFrom [] es

/-- The ids pushed by the `push` events of a trace, in order. -/
def pushedIds : List QEvent → List String
  | [] => []
  | .push id _ _ :: es => id :: pushedIds es
  | .fire _ :: es => pushedIds es
  | .dismiss _ :: es => pushedIds es

/-- The ids removed by `fire` (auto-expiry) or `dismiss` events of a trace. -/
def removedIds : List QEvent → List String
  | [] => []
  | .push _ _ _ :: es => removedIds es
  | .fire id :: es => id :: removedIds es
  | .dismiss id :: es => id :: removedIds es

/-- Well-formed traces, given the ids pushed so far (`seen`): every pushed id
is globally fresh (`Math.random` ids assumed distinct), and a timer can only
fire — and a caller can only dismiss — an id obtained from an earlier push
(an id never pushed at all is also allowed, as dismissal of an absent id is
a no-op). -/
def wfFrom (seen : List String) : List QEvent → Bool
  | [] => true
  | .push id _ _ :: es => !seen.contains id && wfFrom (id :: seen) es
  | .fire id :: es =>
      (seen.contains id || !(pushedIds es).contains id) && wfFrom seen es
  | .dismiss id :: es =>
      (seen.contains id || !(pushedIds es).contains id) && wfFrom seen es

/-! ## `handleUpdateUser` (users page, lines 160–227) -/

/-- Outcome of the single `fetch` to `admin/edit-user` as the handler
observes it:
* `netError m` — the `fetch` promise rejected with an `Error` whose
  `message` is `m`;
* `httpError em` — `response.ok` is false; `em` is `errorData.message`
  after `response.json().catch(() => ({}))` (`none` when the body was not
  JSON or had no `message` field);
* `okResp m` — `response.ok`; `m` is `data.message` after
  `response.json().catch(() => ({}))`. -/
inductive UpdateOutcome where
  | netError (msg : String)
  | httpError (errMessage : Option String)
  | okResp (message : Option String)
deriving DecidableEq, Repr

/-- The merge applied to the matching row on success (lines 197–204):
every mutable field becomes `(userDetails.f as string) || u.f`. -/
def mergeUser (d : UserDetails) (u : User) : User :=
  { u with
    fullName := jsOrStr d.fullName u.fullName
    email := jsOrStr d.email u.email
    mobile := jsOrStr d.mobile u.mobile
    address := jsOrStr d.address u.address
    gender := jsOrStr d.gender u.gender }

/-- `setUsers` on success (lines 194–207): map over the previous list,
merging the row whose `(u.id || u._id)` strictly equals the resolved id. -/
def updateUsersList (users : List User) (d : UserDetails) (id : String) :
    List User :=
  users.map (fun u => if u.key = some id then mergeUser d u else u)

/-- Post-state of one `handleUpdateUser` run: the component state it touches,
the notices pushed, and whether `fetch` was invoked. -/
structure UpdateResult where
  users : List User
  notices : List Notice
  networkCalled : Bool
  isUpdatingUser : Bool
  isModalOpen : Bool
  userDetails : Option UserDetails
deriving DecidableEq, Repr

/-- `handleUpdateUser`, as a function of the state cells it reads
(`userDetails`, `isUpdatingUser`, `users`, `isModalOpen`) and the network
outcome.  The two early `return`s leave all state unchanged; the `finally`
block (lines 221–226) clears `isUpdatingUser`, closes the modal and resets
`userDetails` on every path that enters the `try`. -/
def handleUpdateUser (userDetails : Option UserDetails)
    (isUpdatingUser : Bool) (users : List User) (isModalOpen : Bool)
    (outcome : UpdateOutcome) : UpdateResult :=
  match userDetails with
  | none =>
      ⟨users, [], false, isUpdatingUser, isModalOpen, none⟩
  | some d =>
      if isUpdatingUser then
        ⟨users, [], false, isUpdatingUser, isModalOpen, some d⟩
      else
        let id := d.resolvedId
        if id = "" then
          ⟨users, [⟨"User id is missing, cannot update.", .error⟩],
            false, false, isModalOpen, some d⟩
        else
          match outcome with
          | .netError m =>
              ⟨users, [⟨m, .error⟩], true, false, false, none⟩
          | .httpError em =>
              ⟨users, [⟨jsOrStr em "Failed to update user", .error⟩],
                true, false, false, none⟩
          | .okResp m =>
              ⟨updateUsersList users d id,
                [⟨jsOrStr m "User details updated successfully!", .success⟩],
                true, false, false, none⟩

/-! ## `handleDeleteUser` (users page, lines 229–286) -/

/-- JavaScript `Set.prototype.has`, over the insertion-ordered element list. -/
def setHas (s : List String) (x : String) : Bool :=
  s.contains x

/-- JavaScript `Set.prototype.delete` applied to a copy (`new Set(prev)`;
`newSet.delete(id)`). -/
def setDelete (s : List String) (x : String) : List String :=
  s.filter (fun y => y ≠ x)

/-- JavaScript `Set.prototype.add`: appends iff absent. -/
def setAdd (s : List String) (x : String) : List String :=
  if s.contains x then s else s ++ [x]

/-- Outcome of the `fetch` to `admin/delete-user/:id`, in the same encoding
as `UpdateOutcome` (this handler also guards both `json()` calls with
`.catch(() => ({}))`). -/
inductive DeleteOutcome where
  | netError (msg : String)
  | httpError (errMessage : Option String)
  | okResp (message : Option String)
deriving DecidableEq, Repr

/-- Post-state of one `handleDeleteUser` run. -/
structure DeleteResult where
  users : List User
  favoritedUsers : List String
  notices : List Notice
  networkCalled : Bool
  isDeletingUser : Bool
  isModalOpen : Bool
  userDetails : Option UserDetails
  showDeleteConfirm : Bool
deriving DecidableEq, Repr

/-- `handleDeleteUser`.  On success the list is filtered by
`(u.id || u._id) !== id`, the id is deleted from the favorites set, a
success toast is shown and the modal state is reset; on error only an error
toast is shown (the confirm dialog stays as it was); `finally` clears
`isDeletingUser`. -/
def handleDeleteUser (userDetails : Option UserDetails)
    (isDeletingUser : Bool) (users : List User)
    (favoritedUsers : List String) (isModalOpen : Bool)
    (showDeleteConfirm : Bool) (outcome : DeleteOutcome) : DeleteResult :=
  match userDetails with
  | none =>
      ⟨users, favoritedUsers, [], false, isDeletingUser, isModalOpen, none,
        showDeleteConfirm⟩
  | some d =>
      if isDeletingUser then
        ⟨users, favoritedUsers, [], false, isDeletingUser, isModalOpen,
          some d, showDeleteConfirm⟩
      else
        let id := d.resolvedId
        if id = "" then
          ⟨users, favoritedUsers,
            [⟨"User id is missing, cannot delete.", .error⟩],
            false, false, isModalOpen, some d, showDeleteConfirm⟩
        else
          match outcome with
          | .netError m =>
              ⟨users, favoritedUsers, [⟨m, .error⟩], true, false,
                isModalOpen, some d, showDeleteConfirm⟩
          | .httpError em =>
              ⟨users, favoritedUsers,
                [⟨jsOrStr em "Failed to delete user", .error⟩], true, false,
                isModalOpen, some d, showDeleteConfirm⟩
          | .okResp m =>
              ⟨users.filter (fun u => u.key ≠ some id),
                setDelete favoritedUsers id,
                [⟨jsOrStr m "User deleted successfully!", .success⟩],
                true, false, false, none, false⟩

/-! ## `handleFavorite` (users page, lines 288–342) -/

/-- Outcome of the `fetch` to `admin/favourites`.  Unlike the edit/delete
handlers, the success-path `await response.json()` (line 314) has no
`.catch`, so a 2xx response whose body is not JSON throws and is caught by
the outer `catch` — `okNoJson` carries the message of that parse error. -/
inductive FavOutcome where
  | netError (msg : String)
  | httpError (errMessage : Option String)
  | okNoJson (msg : String)
  | okJson (message : Option String)
deriving DecidableEq, Repr

/-- The local membership flip (lines 317–325): copy the set, delete the id
if present, add it otherwise. -/
def toggleFav (favs : List String) (userId : String) : List String :=
  if setHas favs userId then setDelete favs userId else setAdd favs userId

/-- Post-state of one `handleFavorite` run. -/
structure FavResult where
  favoritedUsers : List String
  notices : List Notice
  networkCalled : Bool
  isFavoriting : Option String
deriving DecidableEq, Repr

/-- `handleFavorite`.  The guard `if (isFavoriting) return` (line 295) uses
JavaScript truthiness, so a pending slot holding the empty string does not
block; otherwise the slot is set to `userId`, the request is made, on a
JSON 2xx the membership is flipped and a success toast shown, on any error
an error toast is shown, and `finally` clears the slot. -/
def handleFavorite (isFavoriting : Option String)
    (favoritedUsers : List String) (userId userName : String)
    (outcome : FavOutcome) : FavResult :=
  if jsTruthy isFavoriting then
    ⟨favoritedUsers, [], false, isFavoriting⟩
  else
    match outcome with
    | .netError m =>
        ⟨favoritedUsers, [⟨m, .error⟩], true, none⟩
    | .httpError em =>
        ⟨favoritedUsers, [⟨jsOrStr em "Failed to add to favorites", .error⟩],
          true, none⟩
    | .okNoJson m =>
        ⟨favoritedUsers, [⟨m, .error⟩], true, none⟩
    | .okJson m =>
        ⟨toggleFav favoritedUsers userId,
          [⟨jsOrStr m (userName ++ " added to favorites successfully!"),
            .success⟩],
          true, none⟩

/-! ## `fetchUsers` (users page, lines 57–92) -/

/-- Outcome of the `fetch` to `admin/list`:
* `netError m` — the `fetch` promise rejected with an `Error` message `m`;
* `notOk` — non-2xx status (`throw new Error("Failed to fetch users")`);
* `okNoJson m` — 2xx but `response.json()` rejected (no `.catch` here)
  with an `Error` message `m`;
* `okJson ud` — 2xx JSON body; `ud` is its `userData` field, `none` when
  the field is absent (`data.userData === undefined`). -/
inductive UsersFetchOutcome where
  | netError (msg : String)
  | notOk
  | okNoJson (msg : String)
  | okJson (userData : Option (List User))
deriving DecidableEq, Repr

/-- Post-state of one `fetchUsers` run.  `users = none` models
`setUsers(undefined)` — the assignment made when the parsed body has no
`userData` field; `users = some l` is the array value held after the run
(unchanged on every error path, where `setUsers` is never called). -/
structure UsersFetchResult where
  users : Option (List User)
  notices : List Notice
  isLoading : Bool
deriving DecidableEq, Repr

/-- `fetchUsers`: replace the whole list with `data.userData` on success;
on any failure show one error toast and leave the list alone; `finally`
clears `isLoading`. -/
def fetchUsers (prevUsers : List User) :
    UsersFetchOutcome → UsersFetchResult
  | .netError m => ⟨some prevUsers, [⟨m, .error⟩], false⟩
  | .notOk => ⟨some prevUsers, [⟨"Failed to fetch users", .error⟩], false⟩
  | .okNoJson m => ⟨some prevUsers, [⟨m, .error⟩], false⟩
  | .okJson ud => ⟨ud, [], false⟩

/-! ## Products page (`src/app/admin/products/page.tsx`) -/

/-- A product row (`interface Product`). -/
structure Product where
  id : Option String
  _id : Option String
  name : String
  link : String
  email : String
  photo : String
  description : String
deriving DecidableEq, Repr

/-- The editable product details held in the edit modal
(`interface ProductDetails`). -/
structure ProductDetails where
  id : Option String
  _id : Option String
  name : Option String
  link : Option String
  email : Option String
  photo : Option String
  description : Option String
deriving DecidableEq, Repr

/-- `(productDetails.id || productDetails._id || "") as string`. -/
def ProductDetails.resolvedId (d : ProductDetails) : String :=
  jsOrStr (jsOr d.id d._id) ""

/-- `(p.id || p._id)`. -/
def Product.key (p : Product) : Option String :=
  jsOr p.id p._id

/-- Characters the client-side email regex `/^[^\s@]+@[^\s@]+\.[^\s@]+$/`
rejects inside an atom: JavaScript `\s` (the main ASCII whitespace
characters together with NBSP and the BOM) and `@`. -/
def isEmailAtomChar (c : Char) : Bool :=
  !(c = ' ' || c = '\t' || c = '\n' || c = '\r' ||
    c = Char.ofNat 11 || c = Char.ofNat 12 ||
    c = Char.ofNat 0xa0 || c = Char.ofNat 0xfeff) && c ≠ '@'

/-- `emailRegex.test(email)` for `/^[^\s@]+@[^\s@]+\.[^\s@]+$/`: the string
splits at a single `@` into a nonempty atom and a remainder of atom
characters containing a `.` that is neither its first nor its last
character (the parts around that dot are the second and third regex
atoms, which may themselves contain dots). -/
def emailRegexTest (s : String) : Bool :=
  match s.toList.splitOn '@' with
  | [a, d] =>
      !a.isEmpty && a.all isEmailAtomChar &&
      !d.isEmpty && d.all isEmailAtomChar &&
      ((d.drop 1).dropLast).contains '.'
  | _ => false

/-- Outcome of the `fetch` to `admin/edit-product`, encoded like
`UpdateOutcome` (both `json()` calls are guarded with `.catch(() => ({}))`). -/
inductive ProductUpdateOutcome where
  | netError (msg : String)
  | httpError (errMessage : Option String)
  | okResp (message : Option String)
deriving DecidableEq, Repr

/-- The merge applied on success (lines 253–270).  `photoPreview` is the
`editPhotoPreview` state (the data-URL of a newly chosen photo, or `""`):
`photo: editPhotoPreview || productDetails.photo || p.photo`. -/
def mergeProduct (d : ProductDetails) (photoPreview : String) (p : Product) :
    Product :=
  { p with
    name := jsOrStr d.name p.name
    link := jsOrStr d.link p.link
    email := jsOrStr d.email p.email
    description := jsOrStr d.description p.description
    photo := jsOrStr (jsOr (some photoPreview) d.photo) p.photo }

/-- Post-state of one `handleUpdateProduct` run. -/
structure ProductUpdateResult where
  products : List Product
  notices : List Notice
  networkCalled : Bool
  isUpdatingProduct : Bool
  modalClosed : Bool
deriving DecidableEq, Repr

/-- `handleUpdateProduct`, parameterised by `urlValid`, the platform
`new URL(...)` parser success (an external boundary, abstracted as an
oracle on the link string).  Validation order: id presence, required
fields non-empty, email regex, URL parse — each failure pushes one error
toast and returns before `fetch`. -/
def handleUpdateProduct (urlValid : String → Bool)
    (productDetails : Option ProductDetails) (isUpdatingProduct : Bool)
    (products : List Product) (photoPreview : String)
    (outcome : ProductUpdateOutcome) : ProductUpdateResult :=
  match productDetails with
  | none => ⟨products, [], false, isUpdatingProduct, false⟩
  | some d =>
      if isUpdatingProduct then
        ⟨products, [], false, isUpdatingProduct, false⟩
      else
        let id := d.resolvedId
        if id = "" then
          ⟨products, [⟨"Product id is missing, cannot update.", .error⟩],
            false, false, false⟩
        else if !(jsTruthy d.name && jsTruthy d.link && jsTruthy d.email &&
            jsTruthy d.description) then
          ⟨products, [⟨"Please fill in all required fields.", .error⟩],
            false, false, false⟩
        else if !emailRegexTest (jsOrStr d.email "") then
          ⟨products, [⟨"Please enter a valid email address.", .error⟩],
            false, false, false⟩
        else if !urlValid (jsOrStr d.link "") then
          ⟨products,
            [⟨"Please enter a valid URL for the link field.", .error⟩],
            false, false, false⟩
        else
          match outcome with
          | .netError m =>
              ⟨products, [⟨m, .error⟩], true, false, false⟩
          | .httpError em =>
              ⟨products, [⟨jsOrStr em "Failed to update product", .error⟩],
                true, false, false⟩
          | .okResp m =>
              ⟨products.map (fun p =>
                  if p.key = some id then mergeProduct d photoPreview p
                  else p),
                [⟨jsOrStr m "Product updated successfully!", .success⟩],
                true, false, true⟩

/-! ## Concrete sample data -/

/-- A concrete user row with id `"1"`. -/
def annLee : User :=
  ⟨some "1", none, "Ann Lee", "ann@lee.com", "1234567890", "1 Main St",
    "female", none, none⟩

/-- A concrete user row with id `"2"`. -/
def bobRoy : User :=
  ⟨some "2", none, "Bob Roy", "0987654321@roy.com", "0987654321",
    "2 Main St", "male", none, none⟩

/-- Modal details carrying no identifier at all. -/
def noIdDetails : UserDetails :=
  ⟨none, none, some "Ann Lee", none, none, none, none⟩

/-- Modal details for user `"1"` editing only the name. -/
def nameOnlyDetails : UserDetails :=
  ⟨some "1", none, some "Ann B. Lee", none, none, none, none⟩

/-- Modal details for user `"1"` with the malformed email `"bad"`. -/
def badEmailDetails : UserDetails :=
  ⟨some "1", none, none, some "bad", none, none, none⟩

/-- Product modal details for product `"1"` with the malformed email
`"bad"` and every required field filled. -/
def badEmailProductDetails : ProductDetails :=
  ⟨some "1", none, some "Lamp", some "https://shop.example/lamp",
    some "bad", some "img.png", some "A desk lamp"⟩

/-! ## Claim theorems -/

/-- C1: a `handleUpdateUser` call whose resolved identifier (`id` or `_id`)
is the empty string pushes exactly one error-kind notification, never
invokes the network transport, and leaves the local user collection
unchanged — whatever the (never consulted) network outcome would have
been. -/
theorem applyEdit_empty_id_fails (d : UserDetails) (us : List User)
    (mo : Bool) (out : UpdateOutcome) (h : d.resolvedId = "") :
    (handleUpdateUser (some d) false us mo out).notices =
      [⟨"User id is missing, cannot update.", ToastKind.error⟩] ∧
    (handleUpdateUser (some d) false us mo out).networkCalled = false ∧
    (handleUpdateUser (some d) false us mo out).users = us := by
  simp [handleUpdateUser, h]

/-- Witness for C1: details with neither `id` nor `_id`, over a one-row
collection. -/
theorem applyEdit_empty_id_fails_witness :
    noIdDetails.resolvedId = "" ∧
    ((handleUpdateUser (some noIdDetails) false [annLee] true
        (.okResp none)).notices =
      [⟨"User id is missing, cannot update.", ToastKind.error⟩] ∧
    (handleUpdateUser (some noIdDetails) false [annLee] true
        (.okResp none)).networkCalled = false ∧
    (handleUpdateUser (some noIdDetails) false [annLee] true
        (.okResp none)).users = [annLee]) :=
  ⟨rfl, applyEdit_empty_id_fails noIdDetails [annLee] true (.okResp none) rfl⟩

/-- C10: every `handleUpdateUser` attempt that passes the id-presence check
ends idle regardless of the network outcome: `isUpdatingUser` is reset to
false, the details modal is closed, and `userDetails` is reset to null. -/
theorem applyEdit_attempt_ends_idle (d : UserDetails) (us : List User)
    (mo : Bool) (out : UpdateOutcome) (h : d.resolvedId ≠ "") :
    (handleUpdateUser (some d) false us mo out).isUpdatingUser = false ∧
    (handleUpdateUser (some d) false us mo out).isModalOpen = false ∧
    (handleUpdateUser (some d) false us mo out).userDetails = none := by
  cases out <;> simp [handleUpdateUser, h]

/-- Witness for C10: a failing network outcome still ends idle. -/
theorem applyEdit_attempt_ends_idle_witness :
    nameOnlyDetails.resolvedId ≠ "" ∧
    ((handleUpdateUser (some nameOnlyDetails) false [annLee] true
        (.netError "boom")).isUpdatingUser = false ∧
    (handleUpdateUser (some nameOnlyDetails) false [annLee] true
        (.netError "boom")).isModalOpen = false ∧
    (handleUpdateUser (some nameOnlyDetails) false [annLee] true
        (.netError "boom")).userDetails = none) :=
  ⟨by decide,
    applyEdit_attempt_ends_idle nameOnlyDetails [annLee] true
      (.netError "boom") (by decide)⟩

/-- C9: `fetchUsers` replaces the whole local collection with the body
`userData` on a 2xx JSON response — in particular the Ann Lee scenario
yields exactly one item whose id is `"1"` — and every failure outcome
(network error, non-2xx status, or unparsable 2xx body) keeps the previous
collection and pushes exactly one notification of kind error. -/
theorem loadAll_replace_or_preserve (prev l : List User) (m pm : String) :
    (fetchUsers prev (.okJson (some l))).users = some l ∧
    (fetchUsers prev (.okJson (some l))).notices = [] ∧
    (fetchUsers prev (.okJson (some [annLee]))).users = some [annLee] ∧
    [annLee].length = 1 ∧ annLee.id = some "1" ∧
    (fetchUsers prev (.netError m)).users = some prev ∧
    (fetchUsers prev (.netError m)).notices.map Notice.kind =
      [ToastKind.error] ∧
    (fetchUsers prev .notOk).users = some prev ∧
    (fetchUsers prev .notOk).notices.map Notice.kind = [ToastKind.error] ∧
    (fetchUsers prev (.okNoJson pm)).users = some prev ∧
    (fetchUsers prev (.okNoJson pm)).notices.map Notice.kind =
      [ToastKind.error] := by
  simp [fetchUsers, annLee]

/-- C4: `handleDeleteUser` against a non-2xx response whose JSON body
carries a non-empty `message` pushes exactly one error notification bearing
that exact text, and leaves both the user collection and the favorites set
unchanged — in particular every row whose key matches the targeted id is
still present. -/
theorem applyDelete_server_error_atomic (d : UserDetails) (us : List User)
    (favs : List String) (mo sdc : Bool) (m : String)
    (hid : d.resolvedId ≠ "") (hm : m ≠ "") :
    (handleDeleteUser (some d) false us favs mo sdc
        (.httpError (some m))).notices = [⟨m, ToastKind.error⟩] ∧
    (handleDeleteUser (some d) false us favs mo sdc
        (.httpError (some m))).users = us ∧
    (handleDeleteUser (some d) false us favs mo sdc
        (.httpError (some m))).favoritedUsers = favs ∧
    (∀ u ∈ us, u.key = some d.resolvedId →
      u ∈ (handleDeleteUser (some d) false us favs mo sdc
        (.httpError (some m))).users) := by
  simp only [handleDeleteUser, hid, jsOrStr, hm]
  refine ⟨by simp [hid, hm], by simp [hid], by simp [hid], ?_⟩
  intro u hu _
  simpa [hid] using hu

/-- Witness for C4: deleting user `"1"` gets HTTP 500 with body message
`"locked"`; the notice text is `"locked"` and the row with id `"1"` is
still in the collection. -/
theorem applyDelete_server_error_atomic_witness :
    nameOnlyDetails.resolvedId ≠ "" ∧ ("locked" : String) ≠ "" ∧
    ((handleDeleteUser (some nameOnlyDetails) false [annLee, bobRoy] ["1"]
        true true (.httpError (some "locked"))).notices =
      [⟨"locked", ToastKind.error⟩] ∧
    (handleDeleteUser (some nameOnlyDetails) false [annLee, bobRoy] ["1"]
        true true (.httpError (some "locked"))).users = [annLee, bobRoy] ∧
    (handleDeleteUser (some nameOnlyDetails) false [annLee, bobRoy] ["1"]
        true true (.httpError (some "locked"))).favoritedUsers = ["1"] ∧
    (∀ u ∈ [annLee, bobRoy], u.key = some nameOnlyDetails.resolvedId →
      u ∈ (handleDeleteUser (some nameOnlyDetails) false [annLee, bobRoy]
        ["1"] true true (.httpError (some "locked"))).users)) :=
  ⟨by decide, by decide,
    applyDelete_server_error_atomic nameOnlyDetails [annLee, bobRoy] ["1"]
      true true "locked" (by decide) (by decide)⟩

/-- C6 counterexample: the currently-toggling slot can be occupied by the
empty-string id (a pending toggle launched from a row lacking both `id`
and `_id` stores `""` in the slot), and then a further `handleFavorite`
invocation is NOT ignored: the slot is non-null, yet the call invokes the
network and mutates the favorites set, so two toggle requests are in
flight at once. -/
theorem favorite_global_lock_cex :
    (some "" : Option String) ≠ none ∧
    (handleFavorite (some "") [] "2" "Bob" (.okJson none)).networkCalled =
      true ∧
    (handleFavorite (some "") [] "2" "Bob" (.okJson none)).favoritedUsers =
      ["2"] := by
  refine ⟨by simp, ?_, ?_⟩ <;> rfl

/-- C6 (amended): while a toggle for a truthy (non-empty) user id is
pending, every further `handleFavorite` invocation — for the same or a
different id — is ignored: no favorites change, no notification, no network
call, slot untouched; and a completing call always clears the slot.  (A
pending toggle whose user id is the empty string does not occupy the guard,
because `if (isFavoriting)` is falsy on `""`.) -/
theorem favorite_guard_serialized (p : String) (favs : List String)
    (uid userName : String) (out : FavOutcome) (hp : p ≠ "") :
    handleFavorite (some p) favs uid userName out =
      ⟨favs, [], false, some p⟩ ∧
    (handleFavorite none favs uid userName out).isFavoriting = none := by
  constructor
  · simp [handleFavorite, jsTruthy, hp]
  · cases out <;> simp [handleFavorite, jsTruthy]

/-- Witness for the amended C6: a pending toggle for id `"1"` makes a
toggle request for id `"2"` a complete no-op. -/
theorem favorite_guard_serialized_witness :
    ("1" : String) ≠ "" ∧
    (handleFavorite (some "1") ["3"] "2" "Bob" (.okJson none) =
      ⟨["3"], [], false, some "1"⟩ ∧
    (handleFavorite none ["3"] "2" "Bob" (.okJson none)).isFavoriting =
      none) :=
  ⟨by decide,
    favorite_guard_serialized "1" ["3"] "2" "Bob" (.okJson none)
      (by decide)⟩

/-- C8 counterexample: `handleUpdateUser` performs no client-side email
validation: editing user `"1"` with the malformed email `"bad"` (rejected
by the email regex the product forms use) reaches the network transport,
and on a 2xx response even writes `"bad"` into the local collection. -/
theorem applyEdit_email_validation_cex :
    emailRegexTest "bad" = false ∧
    (handleUpdateUser (some badEmailDetails) false [annLee] true
      (.okResp none)).networkCalled = true ∧
    (handleUpdateUser (some badEmailDetails) false [annLee] true
      (.okResp none)).users ≠ [annLee] := by
  refine ⟨rfl, rfl, ?_⟩
  decide

/-- C8 (amended): client-side email validation exists on the product paths
only.  `handleUpdateProduct` with a resolved id, all required fields
filled, and an email the regex rejects fails pre-flight with exactly one
error notification, zero network invocations, and an unchanged local
collection — whatever the URL oracle and network outcome would have said.
(`handleUpdateUser` performs no email validation, per the
counterexample.) -/
theorem productEdit_email_validation (urlValid : String → Bool)
    (d : ProductDetails) (ps : List Product) (photoPreview : String)
    (out : ProductUpdateOutcome) (hid : d.resolvedId ≠ "")
    (hn : jsTruthy d.name = true) (hl : jsTruthy d.link = true)
    (he : jsTruthy d.email = true) (hdesc : jsTruthy d.description = true)
    (hbad : emailRegexTest (jsOrStr d.email "") = false) :
    handleUpdateProduct urlValid (some d) false ps photoPreview out =
      ⟨ps, [⟨"Please enter a valid email address.", ToastKind.error⟩],
        false, false, false⟩ := by
  simp [handleUpdateProduct, hid, hn, hl, he, hdesc, hbad]

/-- Witness for the amended C8: updating product `"1"` with email `"bad"`
is rejected pre-flight. -/
theorem productEdit_email_validation_witness :
    badEmailProductDetails.resolvedId ≠ "" ∧
    emailRegexTest (jsOrStr badEmailProductDetails.email "") = false ∧
    handleUpdateProduct (fun _ => true) (some badEmailProductDetails) false
        [] "" (.okResp none) =
      ⟨[], [⟨"Please enter a valid email address.", ToastKind.error⟩],
        false, false, false⟩ :=
  ⟨by decide, by decide,
    productEdit_email_validation (fun _ => true) badEmailProductDetails []
      "" (.okResp none) (by decide) (by decide) (by decide) (by decide)
      (by decide) (by decide)⟩

/-- Toggling an absent id appends it. -/
theorem toggleFav_of_not_mem (favs : List String) (uid : String)
    (h : uid ∉ favs) : toggleFav favs uid = favs ++ [uid] := by
  simp [toggleFav, setHas, setAdd, h]

/-- Toggling a present id deletes every occurrence of it. -/
theorem toggleFav_of_mem (favs : List String) (uid : String)
    (h : uid ∈ favs) : toggleFav favs uid = setDelete favs uid := by
  simp [toggleFav, setHas, h]

/-- Deleting an id from the favorites list makes it absent. -/
theorem not_mem_setDelete (favs : List String) (uid : String) :
    uid ∉ setDelete favs uid := by
  simp [setDelete]

/-- Deleting an absent id is a no-op. -/
theorem setDelete_of_not_mem (favs : List String) (uid : String)
    (h : uid ∉ favs) : setDelete favs uid = favs := by
  refine List.filter_eq_self.mpr ?_
  intro x hx
  simp only [decide_eq_true_eq]
  rintro rfl
  exact h hx

/-- Deleting the id just appended to a set not containing it restores the
set. -/
theorem setDelete_append_single (favs : List String) (uid : String)
    (h : uid ∉ favs) : setDelete (favs ++ [uid]) uid = favs := by
  have hsplit : setDelete (favs ++ [uid]) uid =
      setDelete favs uid ++ setDelete [uid] uid := by
    simp [setDelete]
  rw [hsplit, setDelete_of_not_mem favs uid h]
  simp [setDelete]

/-- C5: a completed `handleFavorite` call (idle slot, 2xx JSON response)
flips local favorite membership exactly once — appending the id when it is
absent, removing it when it is present — and a second completed call on
the same id restores the original membership; when the id was absent it
restores exactly the original list. -/
theorem toggleFavorite_involution (favs : List String)
    (uid userName1 userName2 : String) (m1 m2 : Option String) :
    ((handleFavorite none favs uid userName1 (.okJson m1)).favoritedUsers =
      toggleFav favs uid) ∧
    ((handleFavorite none favs uid userName1 (.okJson m1)).isFavoriting =
      none) ∧
    (uid ∉ favs →
      (handleFavorite none favs uid userName1 (.okJson m1)).favoritedUsers =
        favs ++ [uid]) ∧
    (uid ∈ favs →
      uid ∉ (handleFavorite none favs uid userName1
          (.okJson m1)).favoritedUsers ∧
      (handleFavorite none favs uid userName1 (.okJson m1)).favoritedUsers =
        setDelete favs uid) ∧
    (∀ x,
      x ∈ (handleFavorite
            (handleFavorite none favs uid userName1 (.okJson m1)).isFavoriting
            (handleFavorite none favs uid userName1 (.okJson m1)).favoritedUsers
            uid userName2 (.okJson m2)).favoritedUsers ↔ x ∈ favs) ∧
    (uid ∉ favs →
      (handleFavorite
            (handleFavorite none favs uid userName1 (.okJson m1)).isFavoriting
            (handleFavorite none favs uid userName1 (.okJson m1)).favoritedUsers
            uid userName2 (.okJson m2)).favoritedUsers = favs) := by
  have h1 : (handleFavorite none favs uid userName1
      (.okJson m1)).favoritedUsers = toggleFav favs uid := rfl
  have hslot : (handleFavorite none favs uid userName1
      (.okJson m1)).isFavoriting = none := rfl
  have h2 : (handleFavorite
      (handleFavorite none favs uid userName1 (.okJson m1)).isFavoriting
      (handleFavorite none favs uid userName1 (.okJson m1)).favoritedUsers
      uid userName2 (.okJson m2)).favoritedUsers =
      toggleFav (toggleFav favs uid) uid := by
    rw [hslot, h1]; rfl
  refine ⟨h1, hslot, ?_, ?_, ?_, ?_⟩
  · intro h; rw [h1]; exact toggleFav_of_not_mem favs uid h
  · intro h
    rw [h1, toggleFav_of_mem favs uid h]
    exact ⟨not_mem_setDelete favs uid, rfl⟩
  · intro x
    rw [h2]
    by_cases h : uid ∈ favs
    · rw [toggleFav_of_mem favs uid h,
        toggleFav_of_not_mem (setDelete favs uid) uid
          (not_mem_setDelete favs uid)]
      by_cases hx : x = uid
      · subst hx; simp [setDelete, h]
      · simp [setDelete, hx]
    · rw [toggleFav_of_not_mem favs uid h,
        toggleFav_of_mem (favs ++ [uid]) uid (by simp),
        setDelete_append_single favs uid h]
  · intro h
    rw [h2, toggleFav_of_not_mem favs uid h,
      toggleFav_of_mem (favs ++ [uid]) uid (by simp),
      setDelete_append_single favs uid h]

/-- C2: on network success `handleUpdateUser` changes only the rows whose
key matches the edited id — row count and all non-matching rows are
untouched, position by position — and the matching row is merged field by
field with the JavaScript fallback `newValue || oldValue`: an absent or
empty incoming field keeps the prior value (so editing only the name
leaves the email unchanged), a non-empty incoming field replaces it, and
the identifier and timestamp fields are never touched. -/
theorem applyEdit_success_field_merge (d : UserDetails) (us : List User)
    (mo : Bool) (m : Option String) (hid : d.resolvedId ≠ "") :
    ((handleUpdateUser (some d) false us mo (.okResp m)).users.length =
      us.length) ∧
    (∀ (i : Nat) (u : User), us[i]? = some u → u.key ≠ some d.resolvedId →
      (handleUpdateUser (some d) false us mo (.okResp m)).users[i]? =
        some u) ∧
    (∀ (i : Nat) (u : User), us[i]? = some u → u.key = some d.resolvedId →
      (handleUpdateUser (some d) false us mo (.okResp m)).users[i]? =
        some (mergeUser d u)) ∧
    (∀ u, (mergeUser d u).id = u.id ∧ (mergeUser d u)._id = u._id ∧
      (mergeUser d u).createdAt = u.createdAt ∧
      (mergeUser d u).updatedAt = u.updatedAt) ∧
    (∀ u, (d.fullName = none ∨ d.fullName = some "") →
      (mergeUser d u).fullName = u.fullName) ∧
    (∀ u s, d.fullName = some s → s ≠ "" → (mergeUser d u).fullName = s) ∧
    (∀ u, (d.email = none ∨ d.email = some "") →
      (mergeUser d u).email = u.email) ∧
    (∀ u s, d.email = some s → s ≠ "" → (mergeUser d u).email = s) ∧
    (∀ u, (d.mobile = none ∨ d.mobile = some "") →
      (mergeUser d u).mobile = u.mobile) ∧
    (∀ u s, d.mobile = some s → s ≠ "" → (mergeUser d u).mobile = s) ∧
    (∀ u, (d.address = none ∨ d.address = some "") →
      (mergeUser d u).address = u.address) ∧
    (∀ u s, d.address = some s → s ≠ "" → (mergeUser d u).address = s) ∧
    (∀ u, (d.gender = none ∨ d.gender = some "") →
      (mergeUser d u).gender = u.gender) ∧
    (∀ u s, d.gender = some s → s ≠ "" → (mergeUser d u).gender = s) := by
  have husers : (handleUpdateUser (some d) false us mo (.okResp m)).users =
      updateUsersList us d d.resolvedId := by
    simp [handleUpdateUser, hid]
  refine ⟨?_, ?_, ?_, ?_, ?_, ?_, ?_, ?_, ?_, ?_, ?_, ?_, ?_, ?_⟩
  · rw [husers]; simp [updateUsersList]
  · intro i u hi hk
    rw [husers]
    simp [updateUsersList, hi, hk]
  · intro i u hi hk
    rw [husers]
    simp [updateUsersList, hi, hk]
  · intro u; exact ⟨rfl, rfl, rfl, rfl⟩
  · intro u h; rcases h with h | h <;> simp [mergeUser, jsOrStr, h]
  · intro u s h hs; simp [mergeUser, jsOrStr, h, hs]
  · intro u h; rcases h with h | h <;> simp [mergeUser, jsOrStr, h]
  · intro u s h hs; simp [mergeUser, jsOrStr, h, hs]
  · intro u h; rcases h with h | h <;> simp [mergeUser, jsOrStr, h]
  · intro u s h hs; simp [mergeUser, jsOrStr, h, hs]
  · intro u h; rcases h with h | h <;> simp [mergeUser, jsOrStr, h]
  · intro u s h hs; simp [mergeUser, jsOrStr, h, hs]
  · intro u h; rcases h with h | h <;> simp [mergeUser, jsOrStr, h]
  · intro u s h hs; simp [mergeUser, jsOrStr, h, hs]

/-- Witness for C2: editing only the name of user `"1"` over a two-row
collection. -/
theorem applyEdit_success_field_merge_witness :
    nameOnlyDetails.resolvedId ≠ "" ∧
    (((handleUpdateUser (some nameOnlyDetails) false [annLee, bobRoy] true
        (.okResp none)).users.length = [annLee, bobRoy].length) ∧
    (∀ (i : Nat) (u : User), [annLee, bobRoy][i]? = some u →
      u.key ≠ some nameOnlyDetails.resolvedId →
      (handleUpdateUser (some nameOnlyDetails) false [annLee, bobRoy] true
        (.okResp none)).users[i]? = some u) ∧
    (∀ (i : Nat) (u : User), [annLee, bobRoy][i]? = some u →
      u.key = some nameOnlyDetails.resolvedId →
      (handleUpdateUser (some nameOnlyDetails) false [annLee, bobRoy] true
        (.okResp none)).users[i]? = some (mergeUser nameOnlyDetails u)) ∧
    (∀ u, (mergeUser nameOnlyDetails u).id = u.id ∧
      (mergeUser nameOnlyDetails u)._id = u._id ∧
      (mergeUser nameOnlyDetails u).createdAt = u.createdAt ∧
      (mergeUser nameOnlyDetails u).updatedAt = u.updatedAt) ∧
    (∀ u, (nameOnlyDetails.fullName = none ∨
        nameOnlyDetails.fullName = some "") →
      (mergeUser nameOnlyDetails u).fullName = u.fullName) ∧
    (∀ u s, nameOnlyDetails.fullName = some s → s ≠ "" →
      (mergeUser nameOnlyDetails u).fullName = s) ∧
    (∀ u, (nameOnlyDetails.email = none ∨ nameOnlyDetails.email = some "") →
      (mergeUser nameOnlyDetails u).email = u.email) ∧
    (∀ u s, nameOnlyDetails.email = some s → s ≠ "" →
      (mergeUser nameOnlyDetails u).email = s) ∧
    (∀ u, (nameOnlyDetails.mobile = none ∨
        nameOnlyDetails.mobile = some "") →
      (mergeUser nameOnlyDetails u).mobile = u.mobile) ∧
    (∀ u s, nameOnlyDetails.mobile = some s → s ≠ "" →
      (mergeUser nameOnlyDetails u).mobile = s) ∧
    (∀ u, (nameOnlyDetails.address = none ∨
        nameOnlyDetails.address = some "") →
      (mergeUser nameOnlyDetails u).address = u.address) ∧
    (∀ u s, nameOnlyDetails.address = some s → s ≠ "" →
      (mergeUser nameOnlyDetails u).address = s) ∧
    (∀ u, (nameOnlyDetails.gender = none ∨
        nameOnlyDetails.gender = some "") →
      (mergeUser nameOnlyDetails u).gender = u.gender) ∧
    (∀ u s, nameOnlyDetails.gender = some s → s ≠ "" →
      (mergeUser nameOnlyDetails u).gender = s)) :=
  ⟨by decide,
    applyEdit_success_field_merge nameOnlyDetails [annLee, bobRoy] true none
      (by decide)⟩

/-- Keeping the elements a Boolean predicate rejects and counting those it
accepts partitions a list. -/
theorem length_filter_not_add_countP {α : Type} (l : List α) (p : α → Bool) :
    (l.filter (fun u => !p u)).length + l.countP p = l.length := by
  induction l with
  | nil => simp
  | cons a l ih =>
    by_cases h : p a <;>
      simp only [List.filter_cons, List.countP_cons, h] <;> simp <;> omega

/-- C3: `handleDeleteUser` on network success removes exactly the matching
rows from the local collection — when exactly one row matches the resolved
id the length decreases by exactly one — every non-matching row survives,
no new row appears, and the id is deleted from the favorites set while all
other favorite entries survive (deleting an absent id is a no-op). -/
theorem applyDelete_success_removes_one (d : UserDetails) (us : List User)
    (favs : List String) (mo sdc : Bool) (m : Option String)
    (hid : d.resolvedId ≠ "")
    (huniq : us.countP (fun u => u.key = some d.resolvedId) = 1) :
    ((handleDeleteUser (some d) false us favs mo sdc
        (.okResp m)).users.length + 1 = us.length) ∧
    (∀ u ∈ us, u.key ≠ some d.resolvedId →
      u ∈ (handleDeleteUser (some d) false us favs mo sdc
        (.okResp m)).users) ∧
    (∀ u ∈ (handleDeleteUser (some d) false us favs mo sdc
        (.okResp m)).users, u ∈ us ∧ u.key ≠ some d.resolvedId) ∧
    (d.resolvedId ∉ (handleDeleteUser (some d) false us favs mo sdc
        (.okResp m)).favoritedUsers) ∧
    (∀ x ∈ favs, x ≠ d.resolvedId →
      x ∈ (handleDeleteUser (some d) false us favs mo sdc
        (.okResp m)).favoritedUsers) ∧
    (∀ x ∈ (handleDeleteUser (some d) false us favs mo sdc
        (.okResp m)).favoritedUsers, x ∈ favs) ∧
    (d.resolvedId ∉ favs →
      (handleDeleteUser (some d) false us favs mo sdc
        (.okResp m)).favoritedUsers = favs) := by
  have hu : (handleDeleteUser (some d) false us favs mo sdc
      (.okResp m)).users =
      us.filter (fun u => u.key ≠ some d.resolvedId) := by
    simp [handleDeleteUser, hid]
  have hf : (handleDeleteUser (some d) false us favs mo sdc
      (.okResp m)).favoritedUsers = setDelete favs d.resolvedId := by
    simp [handleDeleteUser, hid]
  refine ⟨?_, ?_, ?_, ?_, ?_, ?_, ?_⟩
  · rw [hu]
    have hpart := length_filter_not_add_countP us
      (fun u => decide (u.key = some d.resolvedId))
    have hpred : us.filter (fun u => u.key ≠ some d.resolvedId) =
        us.filter (fun u => !(decide (u.key = some d.resolvedId))) := by
      simp
    rw [hpred]
    omega
  · intro u hu2 hk
    rw [hu]
    simp [List.mem_filter, hu2, hk]
  · intro u hmem
    rw [hu] at hmem
    have := List.mem_filter.mp hmem
    refine ⟨this.1, by simpa using this.2⟩
  · rw [hf]; exact not_mem_setDelete favs d.resolvedId
  · intro x hx hne
    rw [hf]
    simp [setDelete, List.mem_filter, hx, hne]
  · intro x hx
    rw [hf] at hx
    exact (List.mem_filter.mp hx).1
  · intro h
    rw [hf]
    exact setDelete_of_not_mem favs d.resolvedId h

/-- Witness for C3: deleting user `"1"` from a two-row collection whose
favorites set holds `"1"` and `"2"`. -/
theorem applyDelete_success_removes_one_witness :
    nameOnlyDetails.resolvedId ≠ "" ∧
    ([annLee, bobRoy].countP
      (fun u => u.key = some nameOnlyDetails.resolvedId) = 1) ∧
    (((handleDeleteUser (some nameOnlyDetails) false [annLee, bobRoy]
        ["1", "2"] true true (.okResp none)).users.length + 1 =
      [annLee, bobRoy].length) ∧
    (∀ u ∈ [annLee, bobRoy], u.key ≠ some nameOnlyDetails.resolvedId →
      u ∈ (handleDeleteUser (some nameOnlyDetails) false [annLee, bobRoy]
        ["1", "2"] true true (.okResp none)).users) ∧
    (∀ u ∈ (handleDeleteUser (some nameOnlyDetails) false [annLee, bobRoy]
        ["1", "2"] true true (.okResp none)).users,
      u ∈ [annLee, bobRoy] ∧ u.key ≠ some nameOnlyDetails.resolvedId) ∧
    (nameOnlyDetails.resolvedId ∉
      (handleDeleteUser (some nameOnlyDetails) false [annLee, bobRoy]
        ["1", "2"] true true (.okResp none)).favoritedUsers) ∧
    (∀ x ∈ ["1", "2"], x ≠ nameOnlyDetails.resolvedId →
      x ∈ (handleDeleteUser (some nameOnlyDetails) false [annLee, bobRoy]
        ["1", "2"] true true (.okResp none)).favoritedUsers) ∧
    (∀ x ∈ (handleDeleteUser (some nameOnlyDetails) false [annLee, bobRoy]
        ["1", "2"] true true (.okResp none)).favoritedUsers,
      x ∈ ["1", "2"]) ∧
    (nameOnlyDetails.resolvedId ∉ ["1", "2"] →
      (handleDeleteUser (some nameOnlyDetails) false [annLee, bobRoy]
        ["1", "2"] true true (.okResp none)).favoritedUsers =
        ["1", "2"])) :=
  ⟨by decide, by decide,
    applyDelete_success_removes_one nameOnlyDetails [annLee, bobRoy]
      ["1", "2"] true true none (by decide) (by decide)⟩

/-- In a well-formed trace, an id already seen is never pushed again. -/
theorem wfFrom_seen_not_pushed (es : List QEvent) :
    ∀ (seen : List String) (i : String), wfFrom seen es = true → i ∈ seen →
      i ∉ pushedIds es := by
  induction es with
  | nil => intro seen i _ _; simp [pushedIds]
  | cons e es ih =>
    intro seen i hwf hi
    cases e with
    | push id message kind =>
      simp only [wfFrom, Bool.and_eq_true, Bool.not_eq_true'] at hwf
      obtain ⟨hid, hwf2⟩ := hwf
      simp only [pushedIds, List.mem_cons, not_or]
      constructor
      · rintro rfl
        simp at hid
        exact hid hi
      · exact ih (id :: seen) i hwf2 (List.mem_cons_of_mem id hi)
    | fire id =>
      simp only [wfFrom, Bool.and_eq_true] at hwf
      simpa [pushedIds] using ih seen i hwf.2 hi
    | dismiss id =>
      simp only [wfFrom, Bool.and_eq_true] at hwf
      simpa [pushedIds] using ih seen i hwf.2 hi

/-- Counting invariant for the toast queue along any well-formed trace: the
final queue length plus the number of pushed ids that get removed equals
the number of initial entries that survive every removal plus the number
of pushes. -/
theorem runQFrom_length_invariant (es : List QEvent) :
    ∀ (ts : List Toast) (seen : List String), wfFrom seen es = true →
      (runQFrom ts es).length +
        ((pushedIds es).filter (fun x => x ∈ removedIds es)).length =
      (ts.filter (fun t => t.id ∉ removedIds es)).length +
        (pushedIds es).length := by
  induction es with
  | nil =>
    intro ts seen _
    simp [runQFrom, pushedIds, removedIds]
  | cons e es ih =>
    intro ts seen hwf
    cases e with
    | push id message kind =>
      simp only [wfFrom, Bool.and_eq_true, Bool.not_eq_true'] at hwf
      obtain ⟨hid, hwf2⟩ := hwf
      have h := ih (ts ++ [⟨id, message, kind⟩]) (id :: seen) hwf2
      simp only [runQFrom, List.foldl_cons, qStep, showToast] at h ⊢
      simp only [pushedIds, removedIds, List.filter_cons,
        List.filter_append] at h ⊢
      by_cases hr : id ∈ removedIds es
      · simp [hr] at h ⊢
        omega
      · simp [hr] at h ⊢
        omega
    | fire id =>
      simp only [wfFrom, Bool.and_eq_true, Bool.or_eq_true,
        Bool.not_eq_true'] at hwf
      obtain ⟨hcase, hwf2⟩ := hwf
      have hnp : id ∉ pushedIds es := by
        rcases hcase with hcase | hcase
        · exact wfFrom_seen_not_pushed es seen id hwf2
            (List.elem_iff.mp hcase)
        · simpa using hcase
      have h := ih (ts.filter (fun t => t.id ≠ id)) seen hwf2
      simp only [runQFrom, List.foldl_cons, qStep, expireToast] at h ⊢
      simp only [pushedIds, removedIds] at h ⊢
      have hfilter1 : (pushedIds es).filter
            (fun x => decide (x ∈ id :: removedIds es)) =
          (pushedIds es).filter (fun x => decide (x ∈ removedIds es)) := by
        apply List.filter_congr
        intro x hx
        have hxne : x ≠ id := fun hxe => hnp (hxe ▸ hx)
        simp [List.mem_cons, hxne]
      have hfilter2 : (ts.filter (fun t => t.id ≠ id)).filter
            (fun t => decide (t.id ∉ removedIds es)) =
          ts.filter (fun t => decide (t.id ∉ id :: removedIds es)) := by
        rw [List.filter_filter]
        apply List.filter_congr
        intro t ht
        by_cases h1 : t.id = id <;> by_cases h2 : t.id ∈ removedIds es <;>
          simp [h1, h2]
      rw [show (fun x => decide (x ∈ id :: removedIds es)) =
        (fun x : String => decide (x ∈ id :: removedIds es)) from rfl]
      rw [hfilter1, ← hfilter2]
      exact h
    | dismiss id =>
      simp only [wfFrom, Bool.and_eq_true, Bool.or_eq_true,
        Bool.not_eq_true'] at hwf
      obtain ⟨hcase, hwf2⟩ := hwf
      have hnp : id ∉ pushedIds es := by
        rcases hcase with hcase | hcase
        · exact wfFrom_seen_not_pushed es seen id hwf2
            (List.elem_iff.mp hcase)
        · simpa using hcase
      have h := ih (ts.filter (fun t => t.id ≠ id)) seen hwf2
      simp only [runQFrom, List.foldl_cons, qStep, removeToast] at h ⊢
      simp only [pushedIds, removedIds] at h ⊢
      have hfilter1 : (pushedIds es).filter
            (fun x => decide (x ∈ id :: removedIds es)) =
          (pushedIds es).filter (fun x => decide (x ∈ removedIds es)) := by
        apply List.filter_congr
        intro x hx
        have hxne : x ≠ id := fun hxe => hnp (hxe ▸ hx)
        simp [List.mem_cons, hxne]
      have hfilter2 : (ts.filter (fun t => t.id ≠ id)).filter
            (fun t => decide (t.id ∉ removedIds es)) =
          ts.filter (fun t => decide (t.id ∉ id :: removedIds es)) := by
        rw [List.filter_filter]
        apply List.filter_congr
        intro t ht
        by_cases h1 : t.id = id <;> by_cases h2 : t.id ∈ removedIds es <;>
          simp [h1, h2]
      rw [hfilter1, ← hfilter2]
      exact h

/-- C7: the notification queue.  `showToast` appends exactly one new entry,
immediately active, and its expiry timer — armed for the fixed 4000 ms
delay — removes exactly that entry again; over every well-formed event
trace the number of active messages equals the number of pushes minus the
number of pushed ids that were dismissed or expired; and `removeToast` is
idempotent — a second dismissal, or a dismissal after the expiry timer
already fired, is a harmless no-op that never affects other entries. -/
theorem notificationQueue_push_count_dismiss (ts : List Toast)
    (id message : String) (kind : ToastKind) (es : List QEvent)
    (i : String) (hfresh : id ∉ ts.map Toast.id)
    (hwf : wfFrom [] es = true) :
    toastTimeoutMs = 4000 ∧
    showToast ts id message kind = ts ++ [⟨id, message, kind⟩] ∧
    ((⟨id, message, kind⟩ : Toast) ∈ showToast ts id message kind) ∧
    (showToast ts id message kind).length = ts.length + 1 ∧
    expireToast (showToast ts id message kind) id = ts ∧
    ((runQ es).length +
        ((pushedIds es).filter (fun x => x ∈ removedIds es)).length =
      (pushedIds es).length) ∧
    removeToast (removeToast ts i) i = removeToast ts i ∧
    removeToast (expireToast ts i) i = expireToast ts i ∧
    (∀ t ∈ ts, t.id ≠ i → t ∈ removeToast ts i) ∧
    (∀ t ∈ removeToast ts i, t ∈ ts) := by
  have hself : ts.filter (fun t => t.id ≠ id) = ts := by
    refine List.filter_eq_self.mpr ?_
    intro t ht
    simp only [decide_eq_true_eq]
    intro he
    exact hfresh (he ▸ List.mem_map_of_mem Toast.id ht)
  refine ⟨rfl, rfl, by simp [showToast], by simp [showToast], ?_, ?_, ?_,
    ?_, ?_, ?_⟩
  · simp only [expireToast, showToast, List.filter_append, hself]
    simp
  · have h := runQFrom_length_invariant es [] [] hwf
    simpa [runQ] using h
  · simp [removeToast, List.filter_filter]
  · simp [removeToast, expireToast, List.filter_filter]
  · intro t ht hne
    simp [removeToast, List.mem_filter, ht, hne]
  · intro t ht
    exact (List.mem_filter.mp ht).1

/-- Witness for C7: a fresh push over a one-entry queue, a three-event
trace (two pushes, one dismissal), and a dismissal of the existing
entry. -/
theorem notificationQueue_push_count_dismiss_witness :
    ((("b" : String) ∉ ([⟨"a", "hello", ToastKind.info⟩] :
        List Toast).map Toast.id) ∧
      wfFrom [] [.push "x" "m1" ToastKind.info,
        .push "y" "m2" ToastKind.error, .dismiss "x"] = true) ∧
    (toastTimeoutMs = 4000 ∧
    showToast [⟨"a", "hello", ToastKind.info⟩] "b" "hi" ToastKind.success =
      [⟨"a", "hello", ToastKind.info⟩] ++ [⟨"b", "hi", ToastKind.success⟩] ∧
    ((⟨"b", "hi", ToastKind.success⟩ : Toast) ∈
      showToast [⟨"a", "hello", ToastKind.info⟩] "b" "hi"
        ToastKind.success) ∧
    (showToast [⟨"a", "hello", ToastKind.info⟩] "b" "hi"
        ToastKind.success).length =
      ([⟨"a", "hello", ToastKind.info⟩] : List Toast).length + 1 ∧
    expireToast (showToast [⟨"a", "hello", ToastKind.info⟩] "b" "hi"
        ToastKind.success) "b" = [⟨"a", "hello", ToastKind.info⟩] ∧
    ((runQ [.push "x" "m1" ToastKind.info, .push "y" "m2" ToastKind.error,
        .dismiss "x"]).length +
        ((pushedIds [.push "x" "m1" ToastKind.info,
            .push "y" "m2" ToastKind.error, .dismiss "x"]).filter
          (fun x => x ∈ removedIds [.push "x" "m1" ToastKind.info,
            .push "y" "m2" ToastKind.error, .dismiss "x"])).length =
      (pushedIds [.push "x" "m1" ToastKind.info,
        .push "y" "m2" ToastKind.error, .dismiss "x"]).length) ∧
    removeToast (removeToast [⟨"a", "hello", ToastKind.info⟩] "a") "a" =
      removeToast [⟨"a", "hello", ToastKind.info⟩] "a" ∧
    removeToast (expireToast [⟨"a", "hello", ToastKind.info⟩] "a") "a" =
      expireToast [⟨"a", "hello", ToastKind.info⟩] "a" ∧
    (∀ t ∈ ([⟨"a", "hello", ToastKind.info⟩] : List Toast), t.id ≠ "a" →
      t ∈ removeToast [⟨"a", "hello", ToastKind.info⟩] "a") ∧
    (∀ t ∈ removeToast [⟨"a", "hello", ToastKind.info⟩] "a",
      t ∈ ([⟨"a", "hello", ToastKind.info⟩] : List Toast))) :=
  ⟨⟨by decide, by decide⟩,
    notificationQueue_push_count_dismiss [⟨"a", "hello", ToastKind.info⟩]
      "b" "hi" ToastKind.success
      [.push "x" "m1" ToastKind.info, .push "y" "m2" ToastKind.error,
        .dismiss "x"] "a" (by decide) (by decide)⟩

end ShopSphere
